import Mathlib

/-!
Shallow embedding of the `multissh-rs` repository (src/main.rs) together with a
model, built from the design specification, of the concurrent execution engine
that the specification describes and the present source stubs out.

Strings are represented as lists of characters (`Str`), and the string
primitives used by the source (`str::split`, `str::lines`, `str::trim`,
`str::starts_with`) are given explicit executable models.  The filesystem is a
partial map from paths to file contents.
-/

namespace Multissh

/-- Rust `String` / `&str`, embedded as a list of characters. -/
abbrev Str := List Char

/-- Rust `str::split(sep)` for a single-character separator: splits on every
occurrence of `sep`, keeping empty substrings; the empty string yields `[""]`. -/
def splitOnChar (sep : Char) : Str → List Str
  | [] => [[]]
  | c :: rest =>
    if c = sep then [] :: splitOnChar sep rest
    else
      match splitOnChar sep rest with
      | [] => [[c]]
      | p :: ps => (c :: p) :: ps

/-- Rust `str::lines`: split on a newline character, strip one trailing carriage
return from each line, and do not produce a final empty line for a trailing
newline (nor any line for the empty string). -/
def rustLines (s : Str) : List Str :=
  let parts := splitOnChar '\n' s
  let parts := if parts.getLast? = some [] then parts.dropLast else parts
  parts.map fun l => if l.getLast? = some '\r' then l.dropLast else l

/-- Rust `str::trim`: remove whitespace from both ends (the source only meets
ASCII whitespace, which `Char.isWhitespace` covers). -/
def rustTrim (s : Str) : Str :=
  ((s.dropWhile Char.isWhitespace).reverse.dropWhile Char.isWhitespace).reverse

/-- Rust `str::starts_with(pre)`. -/
def startsWith : Str → Str → Bool
  | _, [] => true
  | [], _ :: _ => false
  | c :: s, p :: ps => c = p && startsWith s ps

/-- The filesystem seen by the program: a path either resolves to file contents
or does not exist. -/
abbrev FileSys := Str → Option Str

/-- The `Cli` argument structure (src/main.rs lines 9-70), one field per clap
option.  `PathBuf`-valued options are paths, embedded as strings. -/
structure Cli where
  targets : Option Str
  targets_file : Option Str
  inventory_file : Option Str
  inventory_group : Option Str
  user : Option Str
  password : Option Str
  ask_password : Bool
  private_key : Option Str
  port : Option Nat
  timeout : Option Nat
  verbose : Bool
  command : Str
  deriving DecidableEq

/-- The conflict declarations carried by the clap derive attributes on `Cli`
(src/main.rs lines 9-70): the source declares no `conflicts_with` relation on
any field, so the list is empty. -/
def cliDeclaredConflicts : List (Str × Str) := []

/-- Whether clap rejects an invocation that supplies both named long options:
it does exactly when a conflict between them is declared on the `Cli` struct. -/
def clapRejects (a b : Str) : Bool :=
  cliDeclaredConflicts.any fun p => (p.1 = a && p.2 = b) || (p.1 = b && p.2 = a)

/-- `OptionExt::to_int` (src/main.rs lines 120-131): `Some _` counts 1,
`None` counts 0. -/
def to_int (o : Option α) : Int :=
  match o with
  | some _ => 1
  | none => 0

/-- `read_targets_file` (src/main.rs lines 94-105): if the file exists, return
its lines, each trimmed, dropping the lines that (after trimming) start with
a hash; otherwise fail with a `File not found` error. -/
def read_targets_file (fs : FileSys) (targets_file : Str) : Except Str (List Str) :=
  match fs targets_file with
  | some lines =>
      .ok (((rustLines lines).map rustTrim).filter fun s => !(startsWith s "#".data))
  | none => .error ("File not found: ".data ++ targets_file)

/-- `read_inventory_file` (src/main.rs lines 107-118): same body as
`read_targets_file`; the `group` argument is accepted but never used. -/
def read_inventory_file (fs : FileSys) (inventory_file : Str) (group : Str) :
    Except Str (List Str) :=
  match fs inventory_file with
  | some lines =>
      .ok (((rustLines lines).map rustTrim).filter fun s => !(startsWith s "#".data))
  | none => .error ("File not found: ".data ++ inventory_file)

/-- Possible results of `get_targets`: a target list, an `anyhow` error
(`bail!`), or the panic raised by the `unimplemented!()` stub. -/
inductive GetTargetsOut where
  | ok (targets : List Str)
  | err (msg : Str)
  | panic
  deriving DecidableEq

/-- The error message of the `bail!` at src/main.rs lines 143 and 179. -/
def requiredMsg : Str :=
  "One of -t/--targets, -f/--targets-file, or -i/--inventory-file is required".data

/-- The error message of the `bail!` at src/main.rs line 148. -/
def exclusiveMsg : Str :=
  "Only one of -t/--targets, -f/--targets-file, or -i/--inventory-file can be used".data

/-- `get_targets` (src/main.rs lines 134-180), translated branch for branch:
the presence check tests `inventory_group` (not `inventory_file`), the
exclusivity check sums `to_int` over `targets`, `targets_file` and
`inventory_group`, the `--targets` string is comma-split, the targets file is
read through `read_targets_file`, and the inventory branch is
`unimplemented!()`. -/
def get_targets (fs : FileSys) (cli : Cli) : GetTargetsOut :=
  if cli.targets.isNone && cli.targets_file.isNone && cli.inventory_group.isNone then
    .err requiredMsg
  else if to_int cli.targets + to_int cli.targets_file + to_int cli.inventory_group > 1 then
    .err exclusiveMsg
  else
    match cli.targets with
    | some targets => .ok (splitOnChar ',' targets)
    | none =>
      match cli.targets_file with
      | some targets_file =>
          match read_targets_file fs targets_file with
          | .ok targets => .ok targets
          | .error e =>
              .err ("Failed to use target file ".data ++ targets_file ++ ": ".data ++ e)
      | none =>
        match cli.inventory_file with
        | some _ => .panic
        | none => .err requiredMsg

/-- Modelled from the spec: an `AuthMethod` is one of `Key(path, optional
passphrase)` or `Password(secret)` (§3 `CredentialPolicy`). -/
inductive AuthMethod where
  | Key (path : Str) (passphrase : Option Str)
  | Password (secret : Str)
  deriving DecidableEq

/-- Modelled from the spec: the tagged `Outcome` variant of a `TaskResult`
(§3). -/
inductive Outcome where
  | Success
  | ConnectFailed (reason : Str)
  | AuthFailed (reason : Str)
  | TimedOut
  | CommandFailed (exitCode : Int)
  | Cancelled
  deriving DecidableEq

/-- Modelled from the spec: a `Target` is a host together with a port (§3). -/
structure Target where
  host : Str
  port : Nat
  deriving DecidableEq

/-- Modelled from the spec: a per-target result (§3 `TaskResult`; the output
payload fields `stdout`, `stderr`, `exitCode`, `duration` are elided, as no
claim constrains them). -/
structure TaskResult where
  target : Target
  outcome : Outcome
  deriving DecidableEq

/-- Modelled from the spec: the Connection Manager's authentication phase
(§4.1) tries each method in the caller-supplied order and stops at the first
one the remote accepts.  Given the remote's acceptance predicate it returns
the list of methods attempted, in attempt order, together with the accepted
method if any. -/
def attemptAuth (accepts : AuthMethod → Bool) : List AuthMethod → List AuthMethod × Option AuthMethod
  | [] => ([], none)
  | m :: rest =>
    if accepts m then ([m], some m)
    else
      let r := attemptAuth accepts rest
      (m :: r.1, r.2)

/-- Modelled from the spec: the authentication outcome (§4.1): the first
accepted method wins (`Success`); if every method is rejected the connection
fails with `AuthFailed(methods exhausted)`. -/
def authOutcome (accepts : AuthMethod → Bool) (methods : List AuthMethod) : Outcome :=
  match (attemptAuth accepts methods).2 with
  | some _ => .Success
  | none => .AuthFailed "methods exhausted".data

/-- Modelled from the spec: the default concurrency limit is a fixed cap,
independent of the number of targets the run is invoked with (§4.3); the
spec fixes no particular value, so the model picks one. -/
def defaultConcurrencyLimit (numTargets : Nat) : Nat := 32

/-- Modelled from the spec: the Scheduler's state (§4.3, §5).  Targets are
identified by their submission index; each index is queued (`pending`, in
submission order), in flight (`running`), or completed (`finished`, paired
with its outcome).  `cancelled` records whether global cancellation has been
triggered. -/
structure SchedState where
  pending : List Nat
  running : List Nat
  finished : List (Nat × Outcome)
  cancelled : Bool
  deriving DecidableEq

/-- Modelled from the spec: initially every target is queued in submission
order, nothing is in flight or finished. -/
def initState (n : Nat) : SchedState :=
  { pending := List.range n, running := [], finished := [], cancelled := false }

/-- Modelled from the spec: the Scheduler's transitions (§4.3).  `outcomeOf`
gives the result each worker produces for its target.
`start`: a queued target may begin only while fewer than `limit` workers are
in flight and the run is not cancelled.
`finish`: an in-flight worker completes, yielding exactly one result.
`cancel`: global cancellation resolves every queued target and every
in-flight target with `Cancelled`, and no new connections are initiated
afterwards. -/
inductive SchedStep (limit : Nat) (outcomeOf : Nat → Outcome) :
    SchedState → SchedState → Prop where
  | start (i : Nat) (rest running : List Nat) (finished : List (Nat × Outcome))
      (hcap : running.length < limit) :
      SchedStep limit outcomeOf
        { pending := i :: rest, running := running, finished := finished, cancelled := false }
        { pending := rest, running := i :: running, finished := finished, cancelled := false }
  | finish (pending r1 r2 : List Nat) (i : Nat) (finished : List (Nat × Outcome)) (c : Bool) :
      SchedStep limit outcomeOf
        { pending := pending, running := r1 ++ i :: r2, finished := finished, cancelled := c }
        { pending := pending, running := r1 ++ r2,
          finished := (i, outcomeOf i) :: finished, cancelled := c }
  | cancel (pending running : List Nat) (finished : List (Nat × Outcome)) :
      SchedStep limit outcomeOf
        { pending := pending, running := running, finished := finished, cancelled := false }
        { pending := [], running := [],
          finished := pending.map (fun i => (i, Outcome.Cancelled))
            ++ running.map (fun i => (i, Outcome.Cancelled)) ++ finished,
          cancelled := true }

/-- A state the scheduler can be in during a run over `n` targets. -/
def Reaches (n limit : Nat) (outcomeOf : Nat → Outcome) (s : SchedState) : Prop :=
  Relation.ReflTransGen (SchedStep limit outcomeOf) (initState n) s

/-- A run is over when nothing is queued and nothing is in flight. -/
def Terminal (s : SchedState) : Prop :=
  s.pending = [] ∧ s.running = []

/-- Modelled from the spec: the Aggregator's final report (§4.4),
reconstructed in original target order regardless of completion order: for
each submission index in order, look up that target's recorded outcome. -/
def finalReport (targets : List Target) (s : SchedState) : List TaskResult :=
  (List.range targets.length).filterMap fun i =>
    (s.finished.find? fun e => e.1 = i).map fun e =>
      { target := targets.getD i { host := [], port := 0 }, outcome := e.2 }

/-- Modelled from the spec: `overallFailed` is true iff some result's outcome
is not `Success` (§4.4). -/
def overallFailed (report : List TaskResult) : Bool :=
  report.any fun r => r.outcome ≠ Outcome.Success

/-- Modelled from the spec: the process exit status, non-zero exactly when
`overallFailed` holds (§6). -/
def processExitCode (report : List TaskResult) : Nat :=
  if overallFailed report then 1 else 0

/-- Across every transition, the multiset of target indices split over
`pending`, `running` and `finished` is exactly the indices originally
submitted: no index is ever duplicated or dropped. -/
theorem reaches_index_multiset (n limit : Nat) (f : Nat → Outcome) (s : SchedState)
    (h : Reaches n limit f s) :
    (↑s.pending + ↑s.running + ↑(s.finished.map Prod.fst) : Multiset Nat)
      = ↑(List.range n) := by
  induction h with
  | refl => simp [initState]
  | tail _ step ih =>
    cases step with
    | start i rest running finished hcap =>
      rw [← ih]
      simp only [← Multiset.cons_coe, ← Multiset.singleton_add]
      abel
    | finish pending r1 r2 i finished c =>
      rw [← ih]
      simp only [List.map_cons, ← Multiset.coe_add, ← Multiset.cons_coe,
        ← Multiset.singleton_add]
      abel
    | cancel pending running finished =>
      rw [← ih]
      simp only [List.map_append, List.map_map, Function.comp_def, List.map_id',
        ← Multiset.coe_add, Multiset.coe_nil]
      abel

/-- In a terminal state, the finished list carries each submitted index
exactly once: its first components are a permutation of `range n`. -/
theorem terminal_finished_perm (n limit : Nat) (f : Nat → Outcome) (s : SchedState)
    (h : Reaches n limit f s) (ht : Terminal s) :
    (s.finished.map Prod.fst).Perm (List.range n) := by
  have hinv := reaches_index_multiset n limit f s h
  rw [ht.1, ht.2] at hinv
  simpa [Multiset.coe_eq_coe] using hinv

/-- Helper: a `filterMap` whose function is total on the list is a `map`. -/
theorem filterMap_eq_map_of_forall {α β : Type} (l : List α) (f : α → Option β)
    (g : α → β) (h : ∀ a ∈ l, f a = some (g a)) : l.filterMap f = l.map g := by
  induction l with
  | nil => rfl
  | cons a l ih =>
    rw [List.filterMap_cons, h a (List.mem_cons_self a l),
      List.map_cons, ih fun a ha => h a (List.mem_cons_of_mem _ ha)]

/-- Helper: reading a list back positionally over `range` reproduces it. -/
theorem map_getD_range {α : Type} (l : List α) (d : α) :
    (List.range l.length).map (fun i => l.getD i d) = l := by
  induction l with
  | nil => rfl
  | cons a l ih =>
    rw [List.length_cons, List.range_succ_eq_map, List.map_cons, List.map_map]
    simp only [List.getD_cons_zero, Function.comp_def, List.getD_cons_succ]
    rw [ih]

/-- Concrete target used by witnesses. -/
def tgtA : Target := { host := "hostA".data, port := 22 }

/-- Concrete target used by witnesses. -/
def tgtB : Target := { host := "hostB".data, port := 22 }

/-- A terminal scheduler state produced by cancelling a two-target run after
one worker has started. -/
def sCancelled : SchedState :=
  { pending := [], running := [],
    finished := [(1, Outcome.Cancelled), (0, Outcome.Cancelled)], cancelled := true }

/-- C1: for every run over N submitted targets, every reachable terminal
state — cancellation included — records exactly one result per submitted
target index (no duplicates, no omissions), and the final report lists the
N targets in original submission order. -/
theorem c1_one_result_per_target_in_order (targets : List Target) (limit : Nat)
    (f : Nat → Outcome) (s : SchedState)
    (hreach : Reaches targets.length limit f s) (hterm : Terminal s) :
    (s.finished.map Prod.fst).Perm (List.range targets.length) ∧
    (finalReport targets s).map TaskResult.target = targets := by
  have hperm := terminal_finished_perm _ _ _ _ hreach hterm
  refine ⟨hperm, ?_⟩
  rw [finalReport, List.map_filterMap]
  rw [filterMap_eq_map_of_forall _ _
    (fun i => targets.getD i { host := [], port := 0 }) ?_]
  · exact map_getD_range targets _
  · intro i hi
    have hmem : i ∈ s.finished.map Prod.fst := hperm.mem_iff.mpr hi
    obtain ⟨e, he, hfst⟩ := List.mem_map.mp hmem
    have hsome : (s.finished.find? fun e => e.1 = i).isSome :=
      List.find?_isSome.mpr ⟨e, he, by simp [hfst]⟩
    obtain ⟨e2, he2⟩ := Option.isSome_iff_exists.mp hsome
    rw [he2]
    rfl

/-- Witness for C1: a cancelled two-target run still reports both targets in
submission order. -/
theorem c1_witness :
    (finalReport [tgtA, tgtB] sCancelled).map TaskResult.target = [tgtA, tgtB] :=
  (c1_one_result_per_target_in_order [tgtA, tgtB] 2 (fun _ => Outcome.Success) sCancelled
    (Relation.ReflTransGen.tail
      (Relation.ReflTransGen.single (SchedStep.start 0 [1] [] [] (by decide)))
      (SchedStep.cancel [1] [0] []))
    ⟨rfl, rfl⟩).2

/-- C2: `overallFailed` holds iff some result's outcome is not `Success`, and
the process exit status is non-zero iff `overallFailed` holds — in
particular the run does not exit successfully whenever any target failed. -/
theorem c2_exit_nonzero_iff_some_failure (report : List TaskResult) :
    (overallFailed report = true ↔ ∃ r ∈ report, r.outcome ≠ Outcome.Success) ∧
    (processExitCode report ≠ 0 ↔ overallFailed report = true) := by
  constructor
  · simp [overallFailed]
  · by_cases h : overallFailed report <;> simp [processExitCode, h]

/-- C3: in every reachable scheduler state of a run with concurrency limit
`limit`, at most `limit` workers are in flight; and the default concurrency
limit is the same fixed cap whatever the number of targets. -/
theorem c3_concurrency_bounded (n limit : Nat) (f : Nat → Outcome) (s : SchedState)
    (h : Reaches n limit f s) :
    s.running.length ≤ limit ∧
    ∀ m k : Nat, defaultConcurrencyLimit m = defaultConcurrencyLimit k := by
  refine ⟨?_, fun _ _ => rfl⟩
  induction h with
  | refl => simp [initState]
  | tail _ step ih =>
    cases step with
    | start i rest running finished hcap =>
      simpa using hcap
    | finish pending r1 r2 i finished c =>
      simp only [List.length_append, List.length_cons] at ih ⊢
      omega
    | cancel pending running finished => simp

/-- Witness for C3: a one-target run with limit 1, after its single start
step, has one worker in flight, within the limit. -/
theorem c3_witness :
    ({ pending := [], running := [0], finished := [], cancelled := false }
      : SchedState).running.length ≤ 1 :=
  (c3_concurrency_bounded 1 1 (fun _ => Outcome.Success) _
    (Relation.ReflTransGen.single (SchedStep.start 0 [] [] [] (by decide)))).1

/-- A two-target report in which the second target failed to connect. -/
def reportAB : List TaskResult :=
  [{ target := tgtA, outcome := Outcome.Success },
   { target := tgtB, outcome := Outcome.ConnectFailed "refused".data }]

/-- Witness for C2: a run where one of two targets failed has a non-zero
exit status. -/
theorem c2_witness :
    (overallFailed reportAB = true ↔ ∃ r ∈ reportAB, r.outcome ≠ Outcome.Success) ∧
    (processExitCode reportAB ≠ 0 ↔ overallFailed reportAB = true) :=
  c2_exit_nonzero_iff_some_failure reportAB

/-- The key method of the C4 scenario. -/
def keyMethod : AuthMethod := AuthMethod.Key "~/.ssh/id_rsa".data none

/-- The password method of the C4 scenario. -/
def pwdMethod : AuthMethod := AuthMethod.Password "secret".data

/-- A remote that rejects every key and accepts every password. -/
def pwdOnlyRemote : AuthMethod → Bool
  | AuthMethod.Password _ => true
  | AuthMethod.Key _ _ => false

/-- C4: authentication tries the policy's methods exactly in caller-supplied
order, stopping at the first accepted one (the attempted list is the rejected
elements up to the first accepted method, and the winner is the first
accepted element); in the scenario `[Key, Password]` with the key rejected
and the password accepted, Key is attempted before Password and the outcome
is `Success`. -/
theorem c4_auth_in_policy_order (accepts : AuthMethod → Bool) (methods : List AuthMethod) :
    ((attemptAuth accepts methods).1
        = methods.takeWhile (fun m => !accepts m)
          ++ (methods.dropWhile (fun m => !accepts m)).take 1 ∧
      (attemptAuth accepts methods).2 = methods.find? accepts) ∧
    ((attemptAuth pwdOnlyRemote [keyMethod, pwdMethod]).1 = [keyMethod, pwdMethod] ∧
      authOutcome pwdOnlyRemote [keyMethod, pwdMethod] = Outcome.Success) := by
  refine ⟨?_, by decide⟩
  induction methods with
  | nil => simp [attemptAuth]
  | cons m rest ih =>
    by_cases h : accepts m <;>
      simp [attemptAuth, h, List.takeWhile_cons, List.dropWhile_cons,
        List.find?_cons, ih]

/-- Witness for C4: the `[Key, Password]` scenario — the key is attempted
first, the password second, and the outcome is `Success`. -/
theorem c4_witness :
    (attemptAuth pwdOnlyRemote [keyMethod, pwdMethod]).1 = [keyMethod, pwdMethod] ∧
    authOutcome pwdOnlyRemote [keyMethod, pwdMethod] = Outcome.Success :=
  (c4_auth_in_policy_order pwdOnlyRemote [keyMethod, pwdMethod]).2

/-- A baseline invocation: no target options, defaults for the rest. -/
def cliBase : Cli :=
  { targets := none, targets_file := none, inventory_file := none,
    inventory_group := none, user := none, password := none, ask_password := false,
    private_key := some "~/.ssh/id_rsa".data, port := some 22, timeout := some 10,
    verbose := false, command := "uname -a".data }

/-- C5 counterexample: supplying `--inventory-file` together with
`--inventory-group` (and no other target option) drives `get_targets` into
the `unimplemented!()` panic — its panic branch is reachable, so not every
failing input is surfaced as a `Result` error. -/
theorem c5_counterexample :
    get_targets (fun _ => none)
      { cliBase with inventory_file := some "/etc/multissh/inventory".data,
                     inventory_group := some "web-servers".data }
      = GetTargetsOut.panic := by decide

/-- C5 amended: `get_targets` panics exactly when the inventory branch is
taken — neither `--targets` nor `--targets-file` supplied, while both
`--inventory-group` and `--inventory-file` are; on every other input it
returns `ok` or a typed error. -/
theorem c5_amended (fs : FileSys) (cli : Cli) :
    get_targets fs cli = GetTargetsOut.panic ↔
      cli.targets = none ∧ cli.targets_file = none ∧
      cli.inventory_group ≠ none ∧ cli.inventory_file ≠ none := by
  rcases cli with ⟨t, tf, invf, invg, u, pw, ap, pk, po, tmo, vb, cmd⟩
  cases t with
  | some t0 =>
    cases tf <;> cases invg <;> cases invf <;> simp [get_targets, to_int]
  | none =>
    cases tf with
    | none => cases invg <;> cases invf <;> simp [get_targets, to_int]
    | some f0 =>
      cases invg <;> cases invf <;>
        cases hr : read_targets_file fs f0 <;>
          simp [get_targets, to_int, hr]

/-- Witness for C5 (amended): the amended characterization instantiated at a
concrete inventory invocation reproduces the panic. -/
theorem c5_witness :
    get_targets (fun _ => none)
      { cliBase with inventory_file := some "/etc/inv".data,
                     inventory_group := some "web".data }
      = GetTargetsOut.panic :=
  (c5_amended (fun _ => none)
    { cliBase with inventory_file := some "/etc/inv".data,
                   inventory_group := some "web".data }).mpr
    ⟨rfl, rfl, fun h => Option.noConfusion h, fun h => Option.noConfusion h⟩

/-- Every split of a string produces at least one piece. -/
theorem splitOnChar_ne_nil (sep : Char) (s : Str) : splitOnChar sep s ≠ [] := by
  cases s with
  | nil => simp [splitOnChar]
  | cons c rest =>
    by_cases h : c = sep
    · simp [splitOnChar, h]
    · simp only [splitOnChar, if_neg h]
      cases splitOnChar sep rest <;> simp

/-- A filesystem with one targets file whose every line is a comment. -/
def fsComments : FileSys :=
  fun p => if p = "/tmp/targets".data then some "# a\n# b\n".data else none

/-- C6 counterexample: with a targets file consisting entirely of comment
lines, target resolution succeeds and hands back the empty list — the
resolved sequence is not always non-empty. -/
theorem c6_counterexample :
    get_targets fsComments { cliBase with targets_file := some "/tmp/targets".data }
      = GetTargetsOut.ok [] := by decide

/-- C6 amended: whenever `get_targets` succeeds, the list preserves the
source order — the comma-split of the `--targets` string (never empty), or
an order-preserving selection of the trimmed lines of the targets file
(which may be empty, e.g. when every line is a comment). -/
theorem c6_amended (fs : FileSys) (cli : Cli) (l : List Str)
    (hok : get_targets fs cli = GetTargetsOut.ok l) :
    (∀ t, cli.targets = some t → l = splitOnChar ',' t ∧ l ≠ []) ∧
    (∀ p c, cli.targets = none → cli.targets_file = some p → fs p = some c →
      l.Sublist ((rustLines c).map rustTrim)) := by
  rcases cli with ⟨t, tf, invf, invg, u, pw, ap, pk, po, tmo, vb, cmd⟩
  constructor
  · rintro t0 ht
    simp only at ht
    subst ht
    simp only [get_targets] at hok
    rw [if_neg (by simp)] at hok
    split at hok
    · cases hok
    · cases hok
      exact ⟨rfl, splitOnChar_ne_nil ',' t0⟩
  · rintro p c ht htf hfs
    simp only at ht htf
    subst ht; subst htf
    simp only [get_targets] at hok
    rw [if_neg (by simp)] at hok
    split at hok
    · cases hok
    · rw [read_targets_file, hfs] at hok
      cases hok
      exact List.filter_sublist _

/-- Witness for C6 (amended): a concrete `--targets` invocation resolves to
its comma-split list, which is non-empty. -/
theorem c6_witness :
    (["h1".data, "h2".data] : List Str) = splitOnChar ',' "h1,h2".data ∧
    (["h1".data, "h2".data] : List Str) ≠ [] :=
  (c6_amended (fun _ => none) { cliBase with targets := some "h1,h2".data }
    ["h1".data, "h2".data] (by decide)).1 "h1,h2".data rfl

/-- C7 counterexample: no conflict between `--password` and `--ask-password`
is declared on `Cli`, and an invocation supplying both flags is accepted,
resolving its targets normally — the two flags are not mutually exclusive. -/
theorem c7_counterexample :
    clapRejects "password".data "ask_password".data = false ∧
    get_targets (fun _ => none)
      { cliBase with targets := some "h1".data, password := some "pw".data,
                     ask_password := true }
      = GetTargetsOut.ok ["h1".data] := by decide

/-- C7 amended: the `Cli` struct declares no mutual exclusion between
`--password` and `--ask-password`; an invocation supplying both is accepted,
and the two flags have no influence on target resolution. -/
theorem c7_amended (fs : FileSys) (cli : Cli) (pw : Str) :
    clapRejects "password".data "ask_password".data = false ∧
    get_targets fs { cli with password := some pw, ask_password := true }
      = get_targets fs cli := by
  refine ⟨rfl, ?_⟩
  rcases cli with ⟨t, tf, invf, invg, u, pw0, ap, pk, po, tmo, vb, cmd⟩
  rfl

/-- Witness for C7 (amended): a concrete invocation showing both flags
coexist without affecting target resolution. -/
theorem c7_witness :
    clapRejects "password".data "ask_password".data = false ∧
    get_targets (fun _ => none)
      { { cliBase with targets := some "h1".data } with
          password := some "pw".data, ask_password := true }
      = get_targets (fun _ => none) { cliBase with targets := some "h1".data } :=
  c7_amended (fun _ => none) { cliBase with targets := some "h1".data } "pw".data

/-- C8: `get_targets` keys its validation on `--inventory-group`, not
`--inventory-file`: an invocation supplying only `--inventory-file` fails
with the `is required` error, and an invocation supplying `--targets`
together with `--inventory-file` (no group) raises no mutual-exclusion error
and returns the comma-split `--targets` list. -/
theorem c8_validation_keyed_on_group (fs : FileSys) (cli : Cli) (p t : Str) :
    (cli.targets = none → cli.targets_file = none → cli.inventory_group = none →
      cli.inventory_file = some p →
      get_targets fs cli = GetTargetsOut.err requiredMsg) ∧
    (cli.targets = some t → cli.targets_file = none → cli.inventory_group = none →
      cli.inventory_file = some p →
      get_targets fs cli = GetTargetsOut.ok (splitOnChar ',' t)) := by
  rcases cli with ⟨t0, tf, invf, invg, u, pw, ap, pk, po, tmo, vb, cmd⟩
  constructor
  · rintro h1 h2 h3 h4
    simp only at h1 h2 h3 h4
    subst h1; subst h2; subst h3; subst h4
    rfl
  · rintro h1 h2 h3 h4
    simp only at h1 h2 h3 h4
    subst h1; subst h2; subst h3; subst h4
    rfl

/-- Witness for C8: concrete invocations exercising both conjuncts. -/
theorem c8_witness :
    get_targets (fun _ => none)
      { cliBase with inventory_file := some "/etc/inv".data }
      = GetTargetsOut.err requiredMsg ∧
    get_targets (fun _ => none)
      { cliBase with targets := some "h1,h2".data,
                     inventory_file := some "/etc/inv".data }
      = GetTargetsOut.ok (splitOnChar ',' "h1,h2".data) :=
  ⟨(c8_validation_keyed_on_group (fun _ => none)
      { cliBase with inventory_file := some "/etc/inv".data }
      "/etc/inv".data []).1 rfl rfl rfl rfl,
   (c8_validation_keyed_on_group (fun _ => none)
      { cliBase with targets := some "h1,h2".data,
                     inventory_file := some "/etc/inv".data }
      "/etc/inv".data "h1,h2".data).2 rfl rfl rfl rfl⟩

/-- C9: `read_inventory_file` ignores its group argument: any two groups give
identical results, the result coincides with `read_targets_file` on the same
file, and on an existing file it is always the full list of trimmed
non-comment lines. -/
theorem c9_group_has_no_effect (fs : FileSys) (f g1 g2 : Str) :
    read_inventory_file fs f g1 = read_inventory_file fs f g2 ∧
    read_inventory_file fs f g1 = read_targets_file fs f ∧
    (∀ c, fs f = some c → read_inventory_file fs f g1
      = Except.ok (((rustLines c).map rustTrim).filter
          fun s => !(startsWith s "#".data))) :=
  ⟨rfl, rfl, fun c hc => by rw [read_inventory_file, hc]⟩

/-- A filesystem with one targets file containing a blank line, a comment
line, and a line with surrounding whitespace. -/
def fsTargets : FileSys :=
  fun p => if p = "/tmp/targets".data then some "h1\n\n#c\n h2 ".data else none

/-- Witness for C9: on a concrete inventory file, two different groups give
the same result, which is the full trimmed non-comment line list. -/
theorem c9_witness :
    read_inventory_file fsTargets "/tmp/targets".data "groupA".data
      = read_inventory_file fsTargets "/tmp/targets".data "groupB".data ∧
    read_inventory_file fsTargets "/tmp/targets".data "groupA".data
      = Except.ok ["h1".data, [], "h2".data] :=
  ⟨(c9_group_has_no_effect fsTargets "/tmp/targets".data
      "groupA".data "groupB".data).1,
   ((c9_group_has_no_effect fsTargets "/tmp/targets".data
      "groupA".data "groupB".data).2.2 "h1\n\n#c\n h2 ".data rfl).trans (by rfl)⟩

/-- C10: target parsing never discards empty entries: a successful
`read_targets_file` result is an order-preserving selection of the file's
trimmed lines that keeps every line not starting with `#` with its exact
multiplicity — in particular blank lines survive as empty-string targets —
and a `--targets` value of the empty string resolves to the one-element
list holding the empty string. -/
theorem c10_empty_entries_kept (fs : FileSys) (p c : Str) (l : List Str)
    (hc : fs p = some c) (hok : read_targets_file fs p = Except.ok l) :
    (l.Sublist ((rustLines c).map rustTrim) ∧
      ∀ s, startsWith s "#".data = false →
        l.count s = ((rustLines c).map rustTrim).count s) ∧
    (∀ cli : Cli, cli.targets = some [] → cli.targets_file = none →
      cli.inventory_group = none → get_targets fs cli = GetTargetsOut.ok [[]]) := by
  rw [read_targets_file, hc] at hok
  cases hok
  refine ⟨⟨List.filter_sublist _, ?_⟩, ?_⟩
  · intro s hs
    exact List.count_filter (by simp [hs])
  · rintro ⟨t0, tf, invf, invg, u, pw, ap, pk, po, tmo, vb, cmd⟩ h1 h2 h3
    simp only at h1 h2 h3
    subst h1; subst h2; subst h3
    rfl

/-- Witness for C10: in a concrete targets file, the blank line survives into
the result with its exact multiplicity. -/
theorem c10_witness :
    (["h1".data, [], "h2".data] : List Str).count []
      = ((rustLines "h1\n\n#c\n h2 ".data).map rustTrim).count [] :=
  ((c10_empty_entries_kept fsTargets "/tmp/targets".data "h1\n\n#c\n h2 ".data
      ["h1".data, [], "h2".data] rfl (by rfl)).1.2 [] rfl)

end Multissh
